import Mathlib

/-!
Verification of the job admission, queuing and dispatch core of
`whisper-transcriber-telegram-bot` (src/main.py, version 0.12) against its
natural-language specification.  The Python source is shallowly embedded:
strings are `List Char`, the per-user dictionaries are association lists
(most recent binding first, matching dict overwrite), the `asyncio.Queue`
is a FIFO list (`put` appends at the tail, `get` removes the head), and the
class-level `asyncio.Lock` is a transition system on an explicit lock state.
-/

namespace WhisperBot

/-- Whitespace for Python's regex class `\s` (ASCII range):
space, tab, newline, carriage return, vertical tab, form feed. -/
def pyIsSpace (c : Char) : Bool :=
  c = ' ' || c = '\t' || c = '\n' || c = '\r' || c = '\x0b' || c = '\x0c'

/-- The characters of the literal scheme `http://`. -/
def httpScheme : List Char := "http://".data

/-- The characters of the literal scheme `https://`. -/
def httpsScheme : List Char := "https://".data

/-- `schemeThenNonspace p cs` holds when `cs` begins with the literal
characters `p` followed by at least one non-whitespace character.  Building
block for the regex `https?://\S+` of `main.py` line 79 anchored at one
position. -/
def schemeThenNonspace : List Char → List Char → Bool
  | [], [] => false
  | [], c :: _ => !pyIsSpace c
  | _ :: _, [] => false
  | p :: ps, c :: rest => p == c && schemeThenNonspace ps rest

/-- Match of `https?://\S+` anchored at the start of `cs`: the alternatives
`http://` or `https://`, then `\S+` demands at least one non-whitespace
character. -/
def urlStartAt (cs : List Char) : Bool :=
  schemeThenNonspace httpScheme cs || schemeThenNonspace httpsScheme cs

/-- `re.findall(r'(https?://\S+)', text)` returns a non-empty list exactly
when the pattern matches at some position of `text` (main.py line 79). -/
def containsUrl : List Char → Bool
  | [] => false
  | c :: rest => urlStartAt (c :: rest) || containsUrl rest

/-- One accepted transcription request: `handle_message` puts the tuple
`(update.message.text, context.bot, update)` on the queue; the bot and the
update are opaque to the core except for the originating user's id, so a
job is the raw message text plus that id (main.py line 82). -/
structure Job where
  text : List Char
  userId : Nat
deriving DecidableEq, Repr

/-- The mutable state of `TranscriberBot` that the embedded handlers touch:
`task_queue` (line 50), the per-user model dictionary kept by
`transcription_handler` behind `set_user_model`/`get_whisper_model`, the
`model_change_limits` dictionary (line 60), and the configured
`valid_models` list (line 58) and default model (line 57 / the
process-wide default of the store). -/
structure BotState where
  taskQueue : List Job
  userModels : List (Nat × String)
  modelChangeLimits : List (Nat × Nat)
  validModels : List String
  defaultModel : String
deriving DecidableEq, Repr

/-- `self.model_change_cooldown = 20` (main.py line 61): the cooldown
period in seconds. -/
def model_change_cooldown : Nat := 20

/-- The `ValidModels` config fallback `'tiny, base, small, medium,
large'.split(', ')` (main.py line 58). -/
def fallbackValidModels : List String :=
  ["tiny", "base", "small", "medium", "large"]

/-- Modelled from the spec: `get_whisper_model` is imported from
`transcription_handler`, which is not under `src/`.  Per the spec
(UserStateStore), `get_model(user_id)` "returns the user's current model or
the process-wide default if none set. Never fails." -/
def get_whisper_model (models : List (Nat × String)) (dflt : String)
    (u : Nat) : String :=
  match models.lookup u with
  | some m => m
  | none => dflt

/-- Modelled from the spec: `set_user_model` is imported from
`transcription_handler`, which is not under `src/`.  Per the spec
(UserStateStore), on success it "atomically updates the user's model".  The
new binding is consed in front; `List.lookup` returns the most recent one,
matching dictionary overwrite. -/
def set_user_model (models : List (Nat × String)) (u : Nat) (m : String) :
    List (Nat × String) :=
  (u, m) :: models

/-- Reply when the new job is alone in the queue (main.py line 88). -/
def processingReply : String :=
  "Your request is next and is currently being processed."

/-- Reply when `n` jobs are ahead (main.py line 88, with
`n = queue_length - 1`). -/
def aheadReply (n : Nat) : String :=
  s!"Your request has been added to the queue. There are {n} jobs ahead of yours."

/-- Reply when no URL is found in the message (main.py line 91). -/
def noUrlReply : String :=
  "No valid URL detected in your message. Please send a message that includes a valid URL. If you need help, type: /help"

/-- Reply after a successful model change (main.py line 169). -/
def modelSetReply (m : String) : String :=
  s!"Model set to: <code>{m}</code>"

/-- Reply to an invalid model request (main.py lines 171-174). -/
def invalidModelReply (ms : String) : String :=
  s!"Invalid model specified.\n\nAvailable models:\n{ms}"

/-- Reply of `/model` with no argument (main.py lines 144-163): the long
static help prose is elided; the reply carries the user's current model and
the valid-model list, which is all the handlers compute. -/
def currentModelReply (current ms : String) : String :=
  s!"Current model: {current}. Available models: {ms}."

/-- `TranscriberBot.handle_message` (main.py lines 65-91), for a received
text message: scan the text with `re.findall(r'(https?://\S+)', ...)`; if
some URL is found, put one tuple carrying the whole message text on the
queue, read `qsize()` and compose the position reply; otherwise reply that
no valid URL was detected.  Returns the new bot state and the reply text. -/
def handle_message (s : BotState) (userId : Nat) (text : List Char) :
    BotState × String :=
  if containsUrl text then
    let q := s.taskQueue ++ [⟨text, userId⟩]
    ({ s with taskQueue := q },
      if q.length = 1 then processingReply else aheadReply (q.length - 1))
  else
    (s, noUrlReply)

/-- `TranscriberBot.model_command` (main.py lines 138-174) at time `now`
(`current_time = time.time()`): with no argument it replies with the
current model and the list; with argument `new_model`, if it is in
`valid_models` it calls `set_user_model`, records `now` in
`model_change_limits` and confirms, else it replies that the model is
invalid.  Note: the source never reads `model_change_limits` or
`model_change_cooldown`; no rate-limit check appears in this handler. -/
def model_command (s : BotState) (userId : Nat) (now : Nat)
    (args : List String) : BotState × String :=
  match args with
  | [] =>
    (s, currentModelReply
          (get_whisper_model s.userModels s.defaultModel userId)
          (String.intercalate ", " s.validModels))
  | newModel :: _ =>
    if newModel ∈ s.validModels then
      ({ s with
          userModels := set_user_model s.userModels userId newModel,
          modelChangeLimits := (userId, now) :: s.modelChangeLimits },
        modelSetReply newModel)
    else
      (s, invalidModelReply (String.intercalate ", " s.validModels))

/-- The collaborator invocation `process_url_message(message_text, bot,
update, model)` (main.py line 99), as seen by the core: the forwarded text,
the originating user and the model resolved at dispatch time. -/
structure CollabCall where
  text : List Char
  userId : Nat
  model : String
deriving DecidableEq, Repr

/-- The call `process_queue` builds for job `j`: the job's full text and
the model `get_whisper_model(user_id)` resolved against the current store
(main.py lines 97-99). -/
def mkCall (models : List (Nat × String)) (dflt : String) (j : Job) :
    CollabCall :=
  ⟨j.text, j.userId, get_whisper_model models dflt j.userId⟩

/-- One iteration of `TranscriberBot.process_queue` (main.py lines 93-100)
up to the collaborator call: `await self.task_queue.get()` suspends on an
empty queue (`none`); otherwise the head job is removed, the user's model
is read at this moment, and the collaborator call is produced. -/
def process_queue_step (s : BotState) : Option (CollabCall × BotState) :=
  match s.taskQueue with
  | [] => none
  | j :: rest =>
    some (mkCall s.userModels s.defaultModel j, { s with taskQueue := rest })

/-- Outcome of one collaborator call, as the dispatcher loop can observe
it: `process_url_message` either returns normally (`returned failed`, with
`failed` recording whether it reported a transcription failure to the
session before returning) or raises an exception (`raised`). -/
inductive CollabResult where
  | returned (failed : Bool)
  | raised (msg : String)
deriving DecidableEq, Repr

/-- The `while True` loop of `TranscriberBot.process_queue` (main.py lines
93-100), run for `fuel` iterations against a collaborator `collab`.  Each
iteration gets the head job, enters `async with processing_lock`, resolves
the model and awaits the collaborator.  If the collaborator returns
normally — whether or not it reported a failure — `task_done()` runs and
the loop continues with the next job.  The loop body has no
`try`/`except`: if the collaborator raises, the `async with` releases the
lock and the exception propagates out of the loop (`Except.error`),
terminating it with the remaining jobs unprocessed. -/
def dispatchLoop (collab : CollabCall → CollabResult) :
    Nat → BotState → Except String (List CollabCall × BotState)
  | 0, s => Except.ok ([], s)
  | fuel + 1, s =>
    match s.taskQueue with
    | [] => Except.ok ([], s)
    | j :: rest =>
      let call := mkCall s.userModels s.defaultModel j
      match collab call with
      | CollabResult.returned _ =>
        match dispatchLoop collab fuel { s with taskQueue := rest } with
        | Except.ok (calls, s₂) => Except.ok (call :: calls, s₂)
        | Except.error e => Except.error e
      | CollabResult.raised e => Except.error e

/-- `task_queue.put` appends at the tail: `asyncio.Queue` is documented
FIFO (main.py line 82). -/
def enqueue (q : List Job) (j : Job) : List Job := q ++ [j]

/-- `task_queue.get` removes the head, or suspends (`none`) on an empty
queue (main.py line 95). -/
def dequeue : List Job → Option (Job × List Job)
  | [] => none
  | j :: rest => some (j, rest)

/-- The sequence of jobs returned by at most `fuel` successive dequeues. -/
def drainN : Nat → List Job → List Job
  | 0, _ => []
  | fuel + 1, q =>
    match dequeue q with
    | none => []
    | some (j, rest) => j :: drainN fuel rest

/-- The sequence of jobs returned by dequeuing until the queue is empty. -/
def drain (q : List Job) : List Job := drainN q.length q

/-- Phase of one dispatcher task with respect to the processing gate:
either waiting (outside `async with TranscriberBot.processing_lock`) or
holding the lock with the collaborator call in flight (main.py lines
96-99). -/
inductive GatePhase where
  | waiting
  | inFlight
deriving DecidableEq, Repr

/-- The process-wide gate state: `TranscriberBot.processing_lock` is a
single class-level `asyncio.Lock` (main.py line 46), shared by every
dispatcher task; `workers` is the phase of each task. -/
structure GateState where
  locked : Bool
  workers : List GatePhase
deriving DecidableEq, Repr

/-- Number of collaborator invocations currently in flight. -/
def inFlightCount (s : GateState) : Nat :=
  (s.workers.filter (fun w => w == GatePhase.inFlight)).length

/-- Transitions of the gate protocol followed by `process_queue`:
`asyncio.Lock.acquire` succeeds only when the lock is free, and the task
then holds it for the whole collaborator call (`async with`); releasing
returns the task to waiting.  No other code path invokes the
collaborator. -/
inductive GateStep : GateState → GateState → Prop where
  | acquire (s : GateState) (i : Nat) (hfree : s.locked = false)
      (hi : s.workers.get? i = some GatePhase.waiting) :
      GateStep s ⟨true, s.workers.set i GatePhase.inFlight⟩
  | release (s : GateState) (i : Nat)
      (hi : s.workers.get? i = some GatePhase.inFlight) :
      GateStep s ⟨false, s.workers.set i GatePhase.waiting⟩

/-- Initial gate state: lock free, every dispatcher task waiting. -/
def gateInit (n : Nat) : GateState :=
  ⟨false, List.replicate n GatePhase.waiting⟩

/-- States the gate protocol can reach from the initial state with `n`
dispatcher tasks. -/
def GateReachable (n : Nat) (s : GateState) : Prop :=
  Relation.ReflTransGen GateStep (gateInit n) s

/-- Spec-side reading of claim C6: a URL-shaped token is scheme `http://`
or `https://` followed by one or more non-whitespace characters. -/
def IsUrlToken (tok : List Char) : Prop :=
  ∃ scheme body, (scheme = httpScheme ∨ scheme = httpsScheme) ∧
    tok = scheme ++ body ∧ body ≠ [] ∧ ∀ c ∈ body, pyIsSpace c = false

/-- Spec-side reading of claim C6: the text contains at least one
URL-shaped substring. -/
def HasUrlShaped (text : List Char) : Prop :=
  ∃ pre tok post, text = pre ++ tok ++ post ∧ IsUrlToken tok

/-- A concrete bot state for witnesses: empty queue, user 7 on model
"small", the fallback valid-model list and default model. -/
def demoState : BotState :=
  { taskQueue := []
    userModels := [(7, "small")]
    modelChangeLimits := []
    validModels := fallbackValidModels
    defaultModel := "medium.en" }

/-- A concrete state whose queue holds two jobs, from users 1 and 2. -/
def twoJobsState : BotState :=
  { demoState with
      taskQueue := [⟨"http://a.mp3".data, 1⟩, ⟨"http://b.mp3".data, 2⟩] }

/-- A collaborator that raises on every call. -/
def boomCollab : CollabCall → CollabResult :=
  fun _ => CollabResult.raised "boom"

/-- A collaborator that reports a transcription failure to the session on
every call, returning normally. -/
def reportFailCollab : CollabCall → CollabResult :=
  fun _ => CollabResult.returned true

theorem schemeThenNonspace_iff (p cs : List Char) :
    schemeThenNonspace p cs = true ↔
      ∃ c rest, cs = p ++ c :: rest ∧ pyIsSpace c = false := by
  induction p generalizing cs with
  | nil =>
    cases cs with
    | nil => simp [schemeThenNonspace]
    | cons c rest => simp [schemeThenNonspace]
  | cons a ps ih =>
    cases cs with
    | nil => simp [schemeThenNonspace]
    | cons c rest =>
      simp only [schemeThenNonspace, Bool.and_eq_true, beq_iff_eq, ih,
        List.cons_append, List.cons.injEq]
      constructor
      · rintro ⟨rfl, x, xs, rfl, hx⟩
        exact ⟨x, xs, ⟨rfl, rfl⟩, hx⟩
      · rintro ⟨x, xs, ⟨rfl, rfl⟩, hx⟩
        exact ⟨rfl, x, xs, rfl, hx⟩

theorem urlStartAt_iff (cs : List Char) :
    urlStartAt cs = true ↔
      ∃ scheme c rest, (scheme = httpScheme ∨ scheme = httpsScheme) ∧
        cs = scheme ++ c :: rest ∧ pyIsSpace c = false := by
  simp only [urlStartAt, Bool.or_eq_true, schemeThenNonspace_iff]
  constructor
  · rintro (⟨c, rest, h, hc⟩ | ⟨c, rest, h, hc⟩)
    · exact ⟨httpScheme, c, rest, Or.inl rfl, h, hc⟩
    · exact ⟨httpsScheme, c, rest, Or.inr rfl, h, hc⟩
  · rintro ⟨scheme, c, rest, (rfl | rfl), h, hc⟩
    · exact Or.inl ⟨c, rest, h, hc⟩
    · exact Or.inr ⟨c, rest, h, hc⟩

theorem containsUrl_iff_suffix (cs : List Char) :
    containsUrl cs = true ↔
      ∃ pre suf, cs = pre ++ suf ∧ urlStartAt suf = true := by
  induction cs with
  | nil =>
    simp [containsUrl, urlStartAt, schemeThenNonspace, httpScheme,
      httpsScheme]
  | cons c rest ih =>
    simp only [containsUrl, Bool.or_eq_true, ih]
    constructor
    · rintro (h | ⟨pre, suf, rfl, hs⟩)
      · exact ⟨[], c :: rest, rfl, h⟩
      · exact ⟨c :: pre, suf, rfl, hs⟩
    · rintro ⟨pre, suf, heq, hs⟩
      cases pre with
      | nil =>
        left
        simp only [List.nil_append] at heq
        rw [← heq] at hs
        exact hs
      | cons p pre' =>
        right
        simp only [List.cons_append, List.cons.injEq] at heq
        exact ⟨pre', suf, heq.2, hs⟩

theorem containsUrl_eq_true_iff (text : List Char) :
    containsUrl text = true ↔ HasUrlShaped text := by
  rw [containsUrl_iff_suffix]
  constructor
  · rintro ⟨pre, suf, rfl, hs⟩
    rw [urlStartAt_iff] at hs
    obtain ⟨scheme, c, rest, hsch, rfl, hc⟩ := hs
    refine ⟨pre, scheme ++ [c], rest, by simp, scheme, [c], hsch, rfl,
      by simp, ?_⟩
    intro x hx
    simp only [List.mem_singleton] at hx
    subst hx
    exact hc
  · rintro ⟨pre, tok, post, rfl, scheme, body, hsch, rfl, hne, hns⟩
    cases body with
    | nil => exact absurd rfl hne
    | cons c body' =>
      refine ⟨pre, scheme ++ c :: (body' ++ post), by simp, ?_⟩
      rw [urlStartAt_iff]
      exact ⟨scheme, c, body' ++ post, hsch, rfl, hns c (by simp)⟩

/-- Claim C6: the admission path recognizes a URL if and only if the
message text contains a substring consisting of scheme `http://` or
`https://` followed by one or more non-whitespace characters, and a job is
enqueued exactly when at least one such substring is present. -/
theorem C6_url_detection (s : BotState) (u : Nat) (text : List Char) :
    (containsUrl text = true ↔ HasUrlShaped text) ∧
    ((∃ j, (handle_message s u text).1.taskQueue = s.taskQueue ++ [j]) ↔
      HasUrlShaped text) := by
  refine ⟨containsUrl_eq_true_iff text, ?_, ?_⟩
  · rintro ⟨j, hj⟩
    by_cases h : containsUrl text = true
    · exact (containsUrl_eq_true_iff text).1 h
    · exfalso
      simp only [handle_message, if_neg h] at hj
      have := congrArg List.length hj
      simp at this
  · intro h
    have hc := (containsUrl_eq_true_iff text).2 h
    exact ⟨⟨text, u⟩, by simp [handle_message, hc]⟩

/-- Claim C7: for a message whose text contains no URL-shaped substring,
the admission path replies that no valid URL was detected, enqueues no job,
and leaves the queue (hence its size) unchanged. -/
theorem C7_no_url (s : BotState) (u : Nat) (text : List Char)
    (h : containsUrl text = false) :
    handle_message s u text = (s, noUrlReply) ∧
    (handle_message s u text).1.taskQueue.length = s.taskQueue.length := by
  have h' : ¬containsUrl text = true := by simp [h]
  exact ⟨by simp [handle_message, h'], by simp [handle_message, h']⟩

/-- Witness for C7 at the spec's scenario message. -/
theorem C7_witness :
    containsUrl ("hello, no links here".data) = false ∧
    handle_message demoState 42 ("hello, no links here".data) =
      (demoState, noUrlReply) :=
  ⟨by decide,
    (C7_no_url demoState 42 ("hello, no links here".data) (by decide)).1⟩

/-- Claim C8: for an admitted message, the reply is determined by the
queue length observed after the enqueue: "processing now" wording when the
resulting position is 1, otherwise exactly N-1 jobs ahead where N is the
observed length. -/
theorem C8_queue_position (s : BotState) (u : Nat) (text : List Char)
    (h : containsUrl text = true) :
    (handle_message s u text).1.taskQueue.length = s.taskQueue.length + 1 ∧
    (handle_message s u text).2 =
      (if (handle_message s u text).1.taskQueue.length = 1
        then processingReply
        else aheadReply ((handle_message s u text).1.taskQueue.length - 1)) := by
  simp [handle_message, h]

/-- Witness for C8: the second of two back-to-back submissions is told one
job is ahead. -/
theorem C8_witness :
    (handle_message (handle_message demoState 1 ("http://a.mp3".data)).1 2
        ("https://b.mp3".data)).2 = aheadReply 1 := by
  have h := C8_queue_position
      (handle_message demoState 1 ("http://a.mp3".data)).1 2
      ("https://b.mp3".data) (by decide)
  rw [h.2]
  rfl

/-- Claim C10: a message containing at least one URL enqueues exactly one
job, the job carries the entire raw message text, and the dispatcher
forwards that full text (not the extracted URLs) to the collaborator. -/
theorem C10_single_job_full_text (s : BotState) (u : Nat) (text : List Char)
    (h : containsUrl text = true) :
    (handle_message s u text).1.taskQueue = s.taskQueue ++ [⟨text, u⟩] ∧
    (∀ s₂ : BotState, ∀ rest : List Job,
      s₂.taskQueue = (⟨text, u⟩ : Job) :: rest →
      process_queue_step s₂ =
        some (⟨text, u, get_whisper_model s₂.userModels s₂.defaultModel u⟩,
          { s₂ with taskQueue := rest })) := by
  constructor
  · simp [handle_message, h]
  · intro s₂ rest h₂
    simp [process_queue_step, h₂, mkCall]

/-- Witness for C10 at a message containing two URLs: a single job holding
the whole text is enqueued. -/
theorem C10_witness :
    (handle_message demoState 7
        ("see http://a.mp3 and https://b.mp3".data)).1.taskQueue =
      [⟨"see http://a.mp3 and https://b.mp3".data, 7⟩] := by
  have h := C10_single_job_full_text demoState 7
      ("see http://a.mp3 and https://b.mp3".data) (by decide)
  simpa [demoState] using h.1

/-- Claim C9: a model-change request for a model outside the configured
valid set replies with the invalid-model message carrying the valid list
and mutates nothing: the whole state — in particular the stored model
resolved by a subsequent lookup, and the rate-limit timestamp — is
unchanged. -/
theorem C9_invalid_model (s : BotState) (u : Nat) (now : Nat) (m : String)
    (args : List String) (h : m ∉ s.validModels) :
    model_command s u now (m :: args) =
      (s, invalidModelReply (String.intercalate ", " s.validModels)) ∧
    get_whisper_model (model_command s u now (m :: args)).1.userModels
        (model_command s u now (m :: args)).1.defaultModel u =
      get_whisper_model s.userModels s.defaultModel u ∧
    (model_command s u now (m :: args)).1.modelChangeLimits =
      s.modelChangeLimits := by
  simp [model_command, h]

/-- Witness for C9 at the invalid model "gigantic". -/
theorem C9_witness :
    model_command demoState 7 100 ["gigantic"] =
      (demoState,
        invalidModelReply (String.intercalate ", " demoState.validModels)) :=
  (C9_invalid_model demoState 7 100 "gigantic" [] (by decide)).1

/-- Claim C1, evaluated at the failing input: `/model small` for user 42
succeeds at time 100; `/model large` arrives at time 105, well inside the
20-second `model_change_cooldown`, yet it also succeeds — the reply is the
"Model set to" confirmation, the stored model becomes "large" and the
rate-limit timestamp moves to 105.  The source updates
`model_change_limits` but never reads it, and `model_change_cooldown` is
never consulted, so no second command is ever rate limited, contradicting
the claim that it signals RateLimited and leaves the state unchanged. -/
theorem C1_cooldown_not_enforced :
    105 - 100 < model_change_cooldown ∧
    (model_command (model_command demoState 42 100 ["small"]).1 42 105
        ["large"]).2 = modelSetReply "large" ∧
    get_whisper_model
        (model_command (model_command demoState 42 100 ["small"]).1 42 105
          ["large"]).1.userModels "medium.en" 42 = "large" ∧
    ((model_command (model_command demoState 42 100 ["small"]).1 42 105
        ["large"]).1.modelChangeLimits).lookup 42 = some 105 :=
  ⟨by decide, rfl, rfl, rfl⟩

theorem drain_eq_self (q : List Job) : drain q = q := by
  unfold drain
  induction q with
  | nil => rfl
  | cons j rest ih => simp [drainN, dequeue, ih]

theorem foldl_enqueue (js : List Job) (q0 : List Job) :
    List.foldl enqueue q0 js = q0 ++ js := by
  induction js generalizing q0 with
  | nil => simp
  | cons j js ih => simp [enqueue, ih]

/-- Claim C3: for every sequence of enqueue operations (on top of any
prior queue contents), the sequence of jobs returned by successive
dequeues equals the prior contents followed by the enqueued jobs in
arrival order — FIFO, no reordering, no priority. -/
theorem C3_fifo (q0 js : List Job) :
    drain (List.foldl enqueue q0 js) = q0 ++ js := by
  rw [foldl_enqueue, drain_eq_self]

/-- Claim C5: a job enqueued for user `u`, followed by a model change for
`u` committed before the job is dequeued, is dispatched with the new model
`m` — the model is resolved at dequeue time, whatever `u`'s stored model
was at enqueue time. -/
theorem C5_late_binding (s : BotState) (u : Nat) (text : List Char)
    (m : String) (now : Nat) (hq : s.taskQueue = [])
    (hurl : containsUrl text = true) (hm : m ∈ s.validModels) :
    process_queue_step
        (model_command (handle_message s u text).1 u now [m]).1 =
      some (⟨text, u, m⟩,
        { (model_command (handle_message s u text).1 u now [m]).1 with
            taskQueue := [] }) := by
  simp [handle_message, hurl, hq, model_command, hm, process_queue_step,
    mkCall, get_whisper_model, set_user_model]

/-- Witness for C5: user 7's model is "small" when the job is enqueued; it
is changed to "large" before the dispatch step, and the collaborator is
invoked with "large". -/
theorem C5_witness :
    process_queue_step
        (model_command (handle_message demoState 7 ("http://x.mp3".data)).1 7
          55 ["large"]).1 =
      some (⟨"http://x.mp3".data, 7, "large"⟩,
        { (model_command (handle_message demoState 7 ("http://x.mp3".data)).1
            7 55 ["large"]).1 with taskQueue := [] }) :=
  C5_late_binding demoState 7 ("http://x.mp3".data) "large" 55 rfl
    (by decide) (by decide)

/-- Claim C2, counterexample: the body of `process_queue` has no
`try`/`except`, so with a collaborator that raises, the exception
propagates out of the dispatcher loop and terminates it — here the queue
holds two jobs and the loop ends in the propagated error instead of
dispatching the second job, contrary to the claim that no collaborator
error propagates out of the loop. -/
theorem C2_counterexample :
    dispatchLoop boomCollab 2 twoJobsState = Except.error "boom" := rfl

/-- Claim C2 as amended: for a collaborator that always returns normally —
including when it reports a transcription failure to the session — the
dispatcher loop never stalls and never errors: it dispatches every queued
job in order and ends with the queue drained. -/
theorem C2_amended (collab : CollabCall → CollabResult)
    (hno : ∀ c, ∃ b, collab c = CollabResult.returned b) (s : BotState)
    (fuel : Nat) (hfuel : s.taskQueue.length ≤ fuel) :
    dispatchLoop collab fuel s =
      Except.ok (s.taskQueue.map (mkCall s.userModels s.defaultModel),
        { s with taskQueue := [] }) := by
  obtain ⟨q, um, mcl, vm, dm⟩ := s
  induction q generalizing fuel with
  | nil =>
    cases fuel with
    | zero => rfl
    | succ fuel => rfl
  | cons j rest ih =>
    cases fuel with
    | zero => simp at hfuel
    | succ fuel =>
      obtain ⟨b, hb⟩ := hno (mkCall um dm j)
      have hrest : (BotState.mk rest um mcl vm dm).taskQueue.length ≤ fuel := by
        simpa using Nat.le_of_succ_le_succ hfuel
      simp only [dispatchLoop, hb, ih fuel hrest, List.map_cons]

/-- Witness for the amended C2: a collaborator that reports failure on
every call still lets the loop dispatch both queued jobs in order. -/
theorem C2_witness :
    dispatchLoop reportFailCollab 2 twoJobsState =
      Except.ok
        ([⟨"http://a.mp3".data, 1, "medium.en"⟩,
          ⟨"http://b.mp3".data, 2, "medium.en"⟩],
          { twoJobsState with taskQueue := [] }) := by
  have h := C2_amended reportFailCollab (fun c => ⟨true, rfl⟩) twoJobsState 2
      (by decide)
  simpa [twoJobsState, demoState, mkCall, get_whisper_model] using h

theorem gatePhase_beq_waiting :
    (GatePhase.waiting == GatePhase.inFlight) = false := rfl

theorem gatePhase_beq_inFlight :
    (GatePhase.inFlight == GatePhase.inFlight) = true := rfl

theorem inFlight_filter_set (l : List GatePhase) (i : Nat)
    (a b : GatePhase) (h : l.get? i = some a) :
    ((l.set i b).filter (fun w => w == GatePhase.inFlight)).length +
        (if a = GatePhase.inFlight then 1 else 0) =
      (l.filter (fun w => w == GatePhase.inFlight)).length +
        (if b = GatePhase.inFlight then 1 else 0) := by
  induction l generalizing i with
  | nil => simp at h
  | cons x xs ih =>
    cases i with
    | zero =>
      simp only [List.get?] at h
      injection h with h
      subst h
      cases x <;> cases b <;>
        simp [List.filter_cons, gatePhase_beq_waiting, gatePhase_beq_inFlight]
    | succ i =>
      simp only [List.get?] at h
      have hx := ih i h
      cases x <;> simp [List.filter_cons] at hx ⊢ <;> omega

theorem inFlight_filter_pos (l : List GatePhase) (i : Nat)
    (h : l.get? i = some GatePhase.inFlight) :
    0 < (l.filter (fun w => w == GatePhase.inFlight)).length := by
  induction l generalizing i with
  | nil => simp at h
  | cons x xs ih =>
    cases i with
    | zero =>
      simp only [List.get?] at h
      injection h with h
      subst h
      simp [List.filter]
    | succ i =>
      simp only [List.get?] at h
      have hx := ih i h
      cases x
      all_goals simp [List.filter_cons] at hx ⊢
      all_goals omega

theorem gate_inv_step (s t : GateState) (hst : GateStep s t)
    (hs : inFlightCount s = if s.locked then 1 else 0) :
    inFlightCount t = if t.locked then 1 else 0 := by
  cases hst with
  | acquire i hfree hi =>
    rw [hfree] at hs
    have hs0 : (s.workers.filter (fun w => w == GatePhase.inFlight)).length = 0 := hs
    have hc : ((s.workers.set i GatePhase.inFlight).filter
          (fun w => w == GatePhase.inFlight)).length =
        (s.workers.filter (fun w => w == GatePhase.inFlight)).length + 1 :=
      inFlight_filter_set s.workers i GatePhase.waiting GatePhase.inFlight hi
    show ((s.workers.set i GatePhase.inFlight).filter
        (fun w => w == GatePhase.inFlight)).length = 1
    omega
  | release i hi =>
    have hc : ((s.workers.set i GatePhase.waiting).filter
          (fun w => w == GatePhase.inFlight)).length + 1 =
        (s.workers.filter (fun w => w == GatePhase.inFlight)).length :=
      inFlight_filter_set s.workers i GatePhase.inFlight GatePhase.waiting hi
    have hle : inFlightCount s ≤ 1 := by
      rw [hs]
      split
      · exact Nat.le_refl 1
      · exact Nat.zero_le 1
    have hle' : (s.workers.filter (fun w => w == GatePhase.inFlight)).length ≤ 1 := hle
    show ((s.workers.set i GatePhase.waiting).filter
        (fun w => w == GatePhase.inFlight)).length = 0
    omega

theorem gate_inv (n : Nat) (s : GateState) (h : GateReachable n s) :
    inFlightCount s = if s.locked then 1 else 0 := by
  induction h with
  | refl => simp [gateInit, inFlightCount]
  | tail hsteps hstep ih => exact gate_inv_step _ _ hstep ih

/-- Claim C4: in every state the gate protocol of `process_queue` can
reach — any number of dispatcher tasks sharing the single class-level
`processing_lock`, each acquiring it before invoking the collaborator and
holding it for the duration of the call — at most one collaborator
invocation is in flight. -/
theorem C4_single_flight (n : Nat) (s : GateState) (h : GateReachable n s) :
    inFlightCount s ≤ 1 := by
  rw [gate_inv n s h]
  split <;> simp

/-- Witness for C4: the reachable state in which one of two dispatcher
tasks has acquired the lock and is mid-call. -/
theorem C4_witness :
    inFlightCount ⟨true, [GatePhase.inFlight, GatePhase.waiting]⟩ ≤ 1 :=
  C4_single_flight 2 ⟨true, [GatePhase.inFlight, GatePhase.waiting]⟩
    (Relation.ReflTransGen.single
      (GateStep.acquire (gateInit 2) 0 rfl rfl))

end WhisperBot
